import Mathlib

/-!
Verification of the news-harvester job-distribution core.

This development shallowly embeds the queue-consumer message processor
(`harvester/app/message_processor.py`), the SQS consumer engine
(`core/sqs_consumer.py`), the RSS scheduler (`harvester/app/rss_processor.py`),
the credential refresher (`harvester/app/bedrock_token.py`) and the crawl
output path construction (`harvester/app/crawler.py`), and proves the spec's
testable properties about them.
-/

/-- Parsed JSON body of a queue message, restricted to the fields the
message processor reads.  `none` models an absent key. -/
structure Body where
  id : Option String
  event_id : Option String
  type : Option String
  url : String
  retry_count : Option Int
  retry : Option Bool
deriving DecidableEq, Repr

/-- Python truthiness filter for an optional string: an absent key or an
empty string is falsy (`body.get(k) or ...` falls through on both). -/
def strTruthy : Option String → Option String
  | some s => if s = "" then none else some s
  | none => none

/-- Key used by the idempotency store, from
`body.get("id") or body.get("event_id") or msg["MessageId"]`. -/
def envelope_key (body : Body) (messageId : String) : String :=
  match strTruthy body.id with
  | some s => s
  | none =>
    match strTruthy body.event_id with
    | some s => s
    | none => messageId

/-- In-process idempotency store (`IdempotencyStore`): a set of already
claimed event ids, modelled as a list. -/
structure IdempotencyStore where
  seen : List String
deriving DecidableEq, Repr

/-- `IdempotencyStore.claim`: returns `false` when the id was already seen,
otherwise records it and returns `true`. -/
def IdempotencyStore.claim (st : IdempotencyStore) (event_id : String) :
    Bool × IdempotencyStore :=
  if event_id ∈ st.seen then (false, st)
  else (true, { seen := event_id :: st.seen })

/-- An SQS message as seen by `process_message`.  `body = none` models a
JSON parse failure; `bodyValid` models whether `CrawlRequest.model_validate`
succeeds on the parsed body; `approxReceiveCount` models
`Attributes.ApproximateReceiveCount` (absent or unparsable ↦ `none`). -/
structure Msg where
  messageId : String
  receiptHandle : String
  body : Option Body
  bodyValid : Bool
  approxReceiveCount : Option Nat
deriving DecidableEq, Repr

/-- `get_receive_count`: the provider-reported receive count, defaulting
to 1 when absent or unparsable. -/
def get_receive_count (msg : Msg) : Nat :=
  msg.approxReceiveCount.getD 1

/-- `compute_backoff_seconds`: `min(900, 2 ** min(receive_count, 8))`. -/
def compute_backoff_seconds (receive_count : Nat) : Nat :=
  min 900 (2 ^ min receive_count 8)

/-- Result of running a message handler: normal return, `RetryableError`
or `NonRetryableError`, each carrying the (possibly mutated) payload. -/
inductive HandlerResult where
  | ok (payload : Body)
  | retryable (payload : Body)
  | nonRetryable (payload : Body)
deriving DecidableEq, Repr

/-- `handle_crawl_single_url`: on crawl failure (`crawlOk = false`,
covering any exception out of the crawl), read `retry_count` (default 0);
below 1, mutate the payload (`retry_count + 1`, `retry = True`) and raise
`RetryableError`, otherwise raise `NonRetryableError`. -/
def handle_crawl_single_url (payload : Body) (crawlOk : Bool) : HandlerResult :=
  if crawlOk then .ok payload
  else
    let rc := payload.retry_count.getD 0
    if rc < 1 then
      .retryable { payload with retry_count := some (rc + 1), retry := some true }
    else
      .nonRetryable payload

/-- Queue adapter calls issued by `process_message`, in order. -/
inductive QueueAction where
  | deleteMessage (receiptHandle : String)
  | sendMessage (body : Body) (delaySeconds : Nat)
  | changeVisibility (receiptHandle : String) (seconds : Nat)
deriving DecidableEq, Repr

/-- Outcome of one `process_message` call: the queue actions it issued,
the idempotency key the handler was invoked with (if it was invoked),
the updated store, and whether an exception escaped the function. -/
structure ProcResult where
  actions : List QueueAction
  handlerInvoked : Option String
  store : IdempotencyStore
  raised : Bool
deriving DecidableEq, Repr

/-- `process_message`, parameterised by the externally determined crawl
outcome (`crawlOk`) and whether the retry re-send succeeds (`sendOk`).
A validation failure raises out of the function (the `except
NonRetryableError` clause does not catch `ValidationError`); an unknown
`type` raises `NonRetryableError` outside the inner `try`. -/
def process_message (st : IdempotencyStore) (msg : Msg)
    (crawlOk : Bool) (sendOk : Bool) : ProcResult :=
  match msg.body with
  | none =>
    { actions := [], handlerInvoked := none, store := st, raised := false }
  | some body =>
    if msg.bodyValid = false then
      { actions := [], handlerInvoked := none, store := st, raised := true }
    else
      let key := envelope_key body msg.messageId
      let claimed := st.claim key
      if claimed.1 = false then
        { actions := [.deleteMessage msg.receiptHandle],
          handlerInvoked := none, store := claimed.2, raised := false }
      else if body.type ≠ some "crawl-single-url" then
        { actions := [], handlerInvoked := none, store := claimed.2, raised := true }
      else
        match handle_crawl_single_url body crawlOk with
        | .ok _ =>
          { actions := [.deleteMessage msg.receiptHandle],
            handlerInvoked := some key, store := claimed.2, raised := false }
        | .retryable payload =>
          let delay := compute_backoff_seconds (get_receive_count msg)
          if sendOk then
            { actions := [.deleteMessage msg.receiptHandle,
                          .sendMessage payload delay],
              handlerInvoked := some key, store := claimed.2, raised := false }
          else
            { actions := [.deleteMessage msg.receiptHandle,
                          .changeVisibility msg.receiptHandle delay],
              handlerInvoked := some key, store := claimed.2, raised := false }
        | .nonRetryable _ =>
          { actions := [], handlerInvoked := some key, store := claimed.2,
            raised := false }

/-- One received message together with its externally determined crawl and
re-send outcomes. -/
structure ConsumerEvent where
  msg : Msg
  crawlOk : Bool
  sendOk : Bool

/-- Keys with which handlers are invoked along a consumer trace, threading
the idempotency store through successive `process_message` calls. -/
def consumerInvocations (st : IdempotencyStore) : List ConsumerEvent → List String
  | [] => []
  | e :: rest =>
    let r := process_message st e.msg e.crawlOk e.sendOk
    (match r.handlerInvoked with
     | some k => [k]
     | none => []) ++ consumerInvocations r.store rest

/-- `get_processed_urls`: URLs already marked processed for a task, read
from the processed-item table (modelled as a list of
`(task_id, url)` marker pairs). -/
def get_processed_urls (markers : List (String × String)) (task_id : String) :
    List String :=
  (markers.filter (fun m => m.1 = task_id)).map (fun m => m.2)

/-- Loop body of `submit_rss_items_to_queue`: iterate over feed items
(each `none` for a missing link field, `some url` otherwise), skipping
falsy URLs and, when tracking is enabled, URLs in the `processed` set read
once before the loop.  Each successful enqueue appends the URL to the
result and, when tracking is enabled, writes a marker.  Returns
`(queued_count, enqueued URLs in order, final markers)`. -/
def submitLoop (track : Bool) (task_id : String) (processed : List String)
    (markers : List (String × String)) :
    List (Option String) → Nat × List String × List (String × String)
  | [] => (0, [], markers)
  | item :: rest =>
    match item with
    | none => submitLoop track task_id processed markers rest
    | some url =>
      if url = "" then
        submitLoop track task_id processed markers rest
      else if track ∧ url ∈ processed then
        submitLoop track task_id processed markers rest
      else
        let markers' := if track then markers ++ [(task_id, url)] else markers
        let r := submitLoop track task_id processed markers' rest
        (r.1 + 1, url :: r.2.1, r.2.2)

/-- `submit_rss_items_to_queue`: read the processed set once (when
tracking is enabled), then run the enqueue loop. -/
def submit_rss_items_to_queue (track : Bool)
    (markers : List (String × String)) (task_id : String)
    (items : List (Option String)) :
    Nat × List String × List (String × String) :=
  let processed := if track then get_processed_urls markers task_id else []
  submitLoop track task_id processed markers items

/-- Item truncation in `parse_rss_feed`:
`if max_items is not None and max_items > 0: items = items[:max_items]`. -/
def parse_rss_feed_limit {α : Type} (max_items : Option Int) (entries : List α) :
    List α :=
  match max_items with
  | some n => if 0 < n then entries.take n.toNat else entries
  | none => entries

/-- `REFRESH_SECONDS = math.floor(token_expiry - token_expiry / 6)`,
with Python true division. -/
def REFRESH_SECONDS_of (token_expiry : Nat) : Nat :=
  (Int.floor ((token_expiry : ℚ) - (token_expiry : ℚ) / 6)).toNat

/-- Outcome of one `provide_token()` call inside `BedrockToken._run`. -/
inductive RefreshAttempt where
  | success (tok : String)
  | failure
deriving DecidableEq, Repr

/-- One iteration of `BedrockToken._run`: on success publish the new
token and sleep `REFRESH_SECONDS`; on failure keep the published token
and sleep 300 seconds.  Returns the published token and the sleep. -/
def bedrockStep (token_expiry : Nat) (published : Option String) :
    RefreshAttempt → Option String × Nat
  | .success t => (some t, REFRESH_SECONDS_of token_expiry)
  | .failure => (published, 300)

/-- Iterated refresher loop: thread the published token through a list of
attempt outcomes, collecting the sleeps. -/
def bedrockRun (token_expiry : Nat) (published : Option String) :
    List RefreshAttempt → Option String × List Nat
  | [] => (published, [])
  | a :: rest =>
    let s := bedrockStep token_expiry published a
    let r := bedrockRun token_expiry s.1 rest
    (r.1, s.2 :: r.2)

/-- Zero-padded two-digit rendering, as Python `f"{n:02d}"` for
non-negative `n`. -/
def pad2 (n : Nat) : String :=
  if n < 10 then "0" ++ toString n else toString n

/-- Last 8 hex characters of the URL's MD5 hex digest
(`hashlib.md5(url.encode()).hexdigest()[-8:]`); the digest function
itself is the external library, passed as a parameter. -/
def url_hash8 (md5hex : String → String) (url : String) : String :=
  (md5hex url).takeRight 8

/-- Components of the crawl output directory: `save_location` is
`{crawl_save_location}/{crawl_task.id}` and the relative path is
`{year}/{month:02d}/{day:02d}/{url_hash}`. -/
def crawlSaveDirComponents (base id : String) (year month day : Nat)
    (urlHash : String) : List String :=
  [base, id, toString year, pad2 month, pad2 day, urlHash]

/-- Join path components with `/`, as `Path` rendering does. -/
def renderPath : List String → String
  | [] => ""
  | [c] => c
  | c :: rest => c ++ "/" ++ renderPath rest

/-- Outcome of awaiting `process_func` inside `_handle_message`: normal
return, an `Exception`, or a `CancelledError`. -/
inductive ProcOutcomePy where
  | ok
  | exc
  | cancelled
deriving DecidableEq, Repr

/-- Outcome of awaiting the cancelled heartbeat task in the inner
`finally`: either it raises `CancelledError` (swallowed) or it re-raises
an `Exception` the heartbeat had failed with. -/
inductive HbJoin where
  | joined
  | raisedExc
deriving DecidableEq, Repr

/-- Events of interest while dispatching one message. -/
inductive HandleEvent where
  | slotAcquire
  | hbStart
  | hbCancel
  | slotRelease
deriving DecidableEq, Repr

/-- `SQSConsumer._handle_message`: start the optional heartbeat, await
`process_func`, cancel-and-await the heartbeat in the inner `finally`
(its exception superseding the handler outcome), catch `Exception` in the
outer `except`, and release the concurrency slot in the outer `finally`.
Returns the event trace and the exception escaping the call, if any. -/
def handle_message (useHb : Bool) (po : ProcOutcomePy) (hj : HbJoin) :
    List HandleEvent × Option ProcOutcomePy :=
  let startEvents : List HandleEvent := if useHb then [.hbStart] else []
  let cancelEvents : List HandleEvent := if useHb then [.hbCancel] else []
  let innerExc : Option ProcOutcomePy :=
    if useHb ∧ hj = .raisedExc then some .exc
    else
      match po with
      | .ok => none
      | .exc => some .exc
      | .cancelled => some .cancelled
  let escaped : Option ProcOutcomePy :=
    match innerExc with
    | some .exc => none
    | x => x
  (startEvents ++ cancelEvents ++ [.slotRelease], escaped)

/-- Dispatch of one message in `SQSConsumer._run`: acquire a concurrency
slot, then run `_handle_message` as its own task. -/
def dispatch_message (useHb : Bool) (po : ProcOutcomePy) (hj : HbJoin) :
    List HandleEvent × Option ProcOutcomePy :=
  let h := handle_message useHb po hj
  (.slotAcquire :: h.1, h.2)

/-- Phase of one handler task relative to the crawl gate
(`async with crawl_semaphore` around `crawl_urls`). -/
inductive CrawlPhase where
  | beforeGate
  | crawling
  | finished
deriving DecidableEq, Repr

/-- Process state for `n` concurrently dispatched crawl handlers:
the internal counter of `crawl_semaphore` and each task's phase. -/
structure CrawlSystem (n : Nat) where
  semValue : Nat
  phase : Fin n → CrawlPhase

/-- Initial state: `crawl_semaphore = asyncio.Semaphore(1)` and every
handler yet to reach the gate. -/
def initCrawlSystem (n : Nat) : CrawlSystem n :=
  { semValue := 1, phase := fun _ => .beforeGate }

/-- Interleaving semantics of the gate: a task may acquire the semaphore
only when its counter is positive (entering `crawl_urls`), and releases
it when leaving the `async with` block. -/
inductive CrawlStep {n : Nat} : CrawlSystem n → CrawlSystem n → Prop where
  | acquire (s : CrawlSystem n) (i : Fin n)
      (hp : s.phase i = .beforeGate) (hv : 0 < s.semValue) :
      CrawlStep s { semValue := s.semValue - 1,
                    phase := Function.update s.phase i .crawling }
  | release (s : CrawlSystem n) (i : Fin n) (hp : s.phase i = .crawling) :
      CrawlStep s { semValue := s.semValue + 1,
                    phase := Function.update s.phase i .finished }

/-- States reachable from the initial state by interleaved gate steps. -/
def CrawlReachable {n : Nat} (s : CrawlSystem n) : Prop :=
  Relation.ReflTransGen CrawlStep (initCrawlSystem n) s

/-- Number of tasks currently executing `crawl_urls`. -/
def crawlingCount {n : Nat} (s : CrawlSystem n) : Nat :=
  (Finset.univ.filter (fun i => s.phase i = CrawlPhase.crawling)).card

/-- Claiming never removes ids from the store. -/
theorem claim_snd_mono (st : IdempotencyStore) (k x : String)
    (hx : x ∈ st.seen) : x ∈ (st.claim k).2.seen := by
  unfold IdempotencyStore.claim
  by_cases hk : k ∈ st.seen
  · simp [hk, hx]
  · simp [hk]
    exact Or.inr hx

/-- A successful claim means the id was fresh. -/
theorem claim_true_not_seen (st : IdempotencyStore) (k : String)
    (h : (st.claim k).1 = true) : k ∉ st.seen := by
  by_cases hk : k ∈ st.seen
  · simp [IdempotencyStore.claim, hk] at h
  · exact hk

/-- A successful claim records the id. -/
theorem claim_true_seen (st : IdempotencyStore) (k : String)
    (h : (st.claim k).1 = true) : (st.claim k).2.seen = k :: st.seen := by
  by_cases hk : k ∈ st.seen
  · simp [IdempotencyStore.claim, hk] at h
  · simp [IdempotencyStore.claim, hk]

/-- A failed claim leaves the store unchanged. -/
theorem claim_false_eq (st : IdempotencyStore) (k : String)
    (h : k ∈ st.seen) : st.claim k = (false, st) := by
  simp [IdempotencyStore.claim, h]

/-- `process_message` never removes ids from the idempotency store. -/
theorem pm_seen_mono (st : IdempotencyStore) (msg : Msg) (c s : Bool)
    (x : String) (hx : x ∈ st.seen) :
    x ∈ (process_message st msg c s).store.seen := by
  obtain ⟨mid, rh, b, bv, arc⟩ := msg
  cases b with
  | none => simpa [process_message] using hx
  | some body =>
    cases bv with
    | false => simpa [process_message] using hx
    | true =>
      have hmono := claim_snd_mono st (envelope_key body mid) x hx
      by_cases hc : (st.claim (envelope_key body mid)).1 = false
      · simpa [process_message, hc] using hmono
      · by_cases ht : body.type = some "crawl-single-url"
        · cases hr : handle_crawl_single_url body c with
          | ok p => simpa [process_message, hc, ht, hr] using hmono
          | retryable p =>
            cases s <;> simpa [process_message, hc, ht, hr] using hmono
          | nonRetryable p => simpa [process_message, hc, ht, hr] using hmono
        · simpa [process_message, hc, ht] using hmono

/-- When a handler is invoked with key `k`, that key was fresh before the
call and is recorded afterwards. -/
theorem pm_invoked_key (st : IdempotencyStore) (msg : Msg) (c s : Bool)
    (k : String)
    (h : (process_message st msg c s).handlerInvoked = some k) :
    k ∉ st.seen ∧ k ∈ (process_message st msg c s).store.seen := by
  obtain ⟨mid, rh, b, bv, arc⟩ := msg
  cases b with
  | none => simp [process_message] at h
  | some body =>
    cases bv with
    | false => simp [process_message] at h
    | true =>
      by_cases hc : (st.claim (envelope_key body mid)).1 = false
      · simp [process_message, hc] at h
      · have hct : (st.claim (envelope_key body mid)).1 = true := by
          cases hcc : (st.claim (envelope_key body mid)).1
          · exact absurd hcc hc
          · rfl
        have hfresh := claim_true_not_seen st _ hct
        have hseen := claim_true_seen st _ hct
        by_cases ht : body.type = some "crawl-single-url"
        · cases hr : handle_crawl_single_url body c with
          | ok p =>
            simp [process_message, hc, ht, hr] at h ⊢
            subst h
            exact ⟨hfresh, by simp [hseen]⟩
          | retryable p =>
            cases s <;>
              · simp [process_message, hc, ht, hr] at h ⊢
                subst h
                exact ⟨hfresh, by simp [hseen]⟩
          | nonRetryable p =>
            simp [process_message, hc, ht, hr] at h ⊢
            subst h
            exact ⟨hfresh, by simp [hseen]⟩
        · simp [process_message, hc, ht] at h

/-- No handler is ever invoked with a key already in the store. -/
theorem invocations_not_seen (tr : List ConsumerEvent)
    (st : IdempotencyStore) (k : String) (hk : k ∈ st.seen) :
    k ∉ consumerInvocations st tr := by
  induction tr generalizing st with
  | nil => simp [consumerInvocations]
  | cons e rest ih =>
    intro hmem
    simp only [consumerInvocations, List.mem_append] at hmem
    rcases hmem with hmem | hmem
    · cases hr : (process_message st e.msg e.crawlOk e.sendOk).handlerInvoked with
      | none => simp [hr] at hmem
      | some k2 =>
        simp [hr] at hmem
        subst hmem
        exact (pm_invoked_key st e.msg e.crawlOk e.sendOk k hr).1 hk
    · exact ih (process_message st e.msg e.crawlOk e.sendOk).store
        (pm_seen_mono st e.msg e.crawlOk e.sendOk k hk) hmem

/-- Along any consumer trace, each key is used for at most one handler
invocation. -/
theorem invocations_count_le_one (tr : List ConsumerEvent)
    (st : IdempotencyStore) (k : String) :
    (consumerInvocations st tr).count k ≤ 1 := by
  induction tr generalizing st with
  | nil => simp [consumerInvocations]
  | cons e rest ih =>
    cases hr : (process_message st e.msg e.crawlOk e.sendOk).handlerInvoked with
    | none =>
      simpa [consumerInvocations, hr] using
        ih (process_message st e.msg e.crawlOk e.sendOk).store
    | some k2 =>
      by_cases hkk : k2 = k
      · subst hkk
        have hnot : k2 ∉ consumerInvocations
            (process_message st e.msg e.crawlOk e.sendOk).store rest :=
          invocations_not_seen rest _ k2
            (pm_invoked_key st e.msg e.crawlOk e.sendOk k2 hr).2
        simp [consumerInvocations, hr, List.count_cons,
          List.count_eq_zero.mpr hnot]
      · simpa [consumerInvocations, hr, List.count_cons, hkk] using
          ih (process_message st e.msg e.crawlOk e.sendOk).store

/-- When an incoming envelope's key is already in the store, the message
is deleted immediately and no handler runs. -/
theorem pm_dup_deletes (st : IdempotencyStore) (msg : Msg) (body : Body)
    (c s : Bool) (hb : msg.body = some body) (hv : msg.bodyValid = true)
    (hk : envelope_key body msg.messageId ∈ st.seen) :
    process_message st msg c s =
      { actions := [.deleteMessage msg.receiptHandle],
        handlerInvoked := none, store := st, raised := false } := by
  obtain ⟨mid, rh, b, bv, arc⟩ := msg
  simp only at hb hv hk
  subst hb
  subst hv
  simp [process_message, claim_false_eq st _ hk]

/-- Test envelope whose `id` key is present but empty — it passes
`CrawlRequest` validation (`id : str` accepts the empty string) yet is
falsy in `body.get("id") or ...` — and which also carries an
`event_id`. -/
def bodyEvt : Body :=
  { id := some "", event_id := some "e1", type := some "crawl-single-url",
    url := "https://e.com/a", retry_count := none, retry := none }

/-- Test message delivering `bodyEvt` with provider message id `m1`. -/
def msgEvt : Msg :=
  { messageId := "m1", receiptHandle := "rh1", body := some bodyEvt,
    bodyValid := true, approxReceiveCount := some 1 }

/-- Test envelope with `id = "x"`. -/
def bodyIdX : Body :=
  { id := some "x", event_id := none, type := some "crawl-single-url",
    url := "https://e.com/a", retry_count := none, retry := none }

/-- Test message delivering `bodyIdX`. -/
def msgIdX (mid rh : String) : Msg :=
  { messageId := mid, receiptHandle := rh, body := some bodyIdX,
    bodyValid := true, approxReceiveCount := some 1 }

/-- C1, as stated, is false: the code derives the idempotency key from
`body.get("id") or body.get("event_id") or msg["MessageId"]`, and a
validation-passing envelope with `id = ""` (present but empty, hence
falsy) and `event_id = "e1"` gets key `"e1"` — neither the envelope's
`id` (which is present, so the claim makes it the key) nor the provider
message id `"m1"`.  With both `""` and `"m1"` already in the set, the
claim predicts an immediate delete with no dispatch under either reading
of its key rule, but the code dispatches the handler. -/
theorem c1_counterexample :
    bodyEvt.id = some "" ∧ envelope_key bodyEvt "m1" = "e1" ∧
    ("e1" : String) ≠ "" ∧ ("e1" : String) ≠ "m1" ∧
    (process_message { seen := ["", "m1"] } msgEvt true true).handlerInvoked =
      some "e1" :=
  ⟨rfl, rfl, by decide, by decide, rfl⟩

/-- C1 (amended): with the key derived as `id` if present and non-empty,
else `event_id` if present and non-empty, else the provider message id,
the consumer invokes at most one handler per key during a process
lifetime, and a message whose key is already in the idempotency set is
deleted immediately without dispatching a handler. -/
theorem c1_at_most_once :
    (∀ (tr : List ConsumerEvent) (k : String),
        (consumerInvocations { seen := [] } tr).count k ≤ 1) ∧
    (∀ (st : IdempotencyStore) (msg : Msg) (body : Body) (c s : Bool),
        msg.body = some body → msg.bodyValid = true →
        envelope_key body msg.messageId ∈ st.seen →
        process_message st msg c s =
          { actions := [.deleteMessage msg.receiptHandle],
            handlerInvoked := none, store := st, raised := false }) :=
  ⟨fun tr k => invocations_count_le_one tr { seen := [] } k,
   fun st msg body c s hb hv hk => pm_dup_deletes st msg body c s hb hv hk⟩

/-- Witness for C1 (amended) at a concrete duplicate delivery. -/
theorem c1_witness :
    (consumerInvocations { seen := [] }
        [{ msg := msgIdX "m1" "rh1", crawlOk := true, sendOk := true },
         { msg := msgIdX "m2" "rh2", crawlOk := true, sendOk := true }]).count
      "x" ≤ 1 ∧
    process_message { seen := ["x"] } (msgIdX "m2" "rh2") true true =
      { actions := [.deleteMessage "rh2"], handlerInvoked := none,
        store := { seen := ["x"] }, raised := false } :=
  ⟨c1_at_most_once.1 _ "x",
   c1_at_most_once.2 { seen := ["x"] } _ bodyIdX true true rfl rfl
     (by decide)⟩

/-- Test envelope on its first delivery (`retry_count` present as 0). -/
def bodyRetry : Body :=
  { id := some "x", event_id := none, type := some "crawl-single-url",
    url := "https://e.com/a", retry_count := some 0, retry := none }

/-- Test message delivering `bodyRetry` with receive count 1. -/
def msgRetry : Msg :=
  { messageId := "m1", receiptHandle := "rh1", body := some bodyRetry,
    bodyValid := true, approxReceiveCount := some 1 }

/-- C2, as stated, is false: the body of the retry re-emission is not
identical-except-`retry_count` to the incoming body — the handler also
sets `retry = True` before raising `RetryableError`, and that mutated
payload is what gets re-serialised and sent. -/
theorem c2_counterexample :
    (process_message { seen := [] } msgRetry false true).actions =
      [.deleteMessage "rh1",
       .sendMessage
         { bodyRetry with retry_count := some 1, retry := some true } 2] ∧
    ({ bodyRetry with retry_count := some 1, retry := some true } : Body) ≠
      { bodyRetry with retry_count := some 1 } := by
  decide

/-- C2 (amended): on a retryable failure the consumer deletes the original
message and sends a new message whose body is the incoming body with
`retry_count` set to the incoming `retry_count + 1` and `retry` set to
true, delayed by `min(900, 2^min(receive_count, 8))` seconds where
`receive_count` is the provider-reported receive count; if the re-send
fails it falls back to extending the original message's visibility by
that same backoff amount. -/
theorem c2_retry_reemission (st : IdempotencyStore) (msg : Msg)
    (body : Body) (rc : Nat)
    (hb : msg.body = some body) (hv : msg.bodyValid = true)
    (hk : envelope_key body msg.messageId ∉ st.seen)
    (ht : body.type = some "crawl-single-url")
    (hrc : body.retry_count.getD 0 < 1)
    (harc : msg.approxReceiveCount = some rc) :
    (process_message st msg false true).actions =
      [.deleteMessage msg.receiptHandle,
       .sendMessage
         { body with retry_count := some (body.retry_count.getD 0 + 1),
                     retry := some true }
         (min 900 (2 ^ min rc 8))] ∧
    (process_message st msg false false).actions =
      [.deleteMessage msg.receiptHandle,
       .changeVisibility msg.receiptHandle (min 900 (2 ^ min rc 8))] := by
  obtain ⟨mid, rh, b, bv, arc⟩ := msg
  simp only at hb hv hk harc ⊢
  subst hb
  subst hv
  subst harc
  have hck : st.claim (envelope_key body mid) =
      (true, { seen := envelope_key body mid :: st.seen }) := by
    simp [IdempotencyStore.claim, hk]
  constructor <;>
    simp [process_message, hck, ht, handle_crawl_single_url, hrc,
      compute_backoff_seconds, get_receive_count]

/-- Witness for C2 (amended) at scenario S2: first failure of a fresh
envelope with receive count 1 yields delay `2` and `retry_count = 1`. -/
theorem c2_witness :
    (process_message { seen := [] } msgRetry false true).actions =
      [.deleteMessage "rh1",
       .sendMessage
         { bodyRetry with retry_count := some 1, retry := some true } 2] ∧
    (process_message { seen := [] } msgRetry false false).actions =
      [.deleteMessage "rh1", .changeVisibility "rh1" 2] :=
  c2_retry_reemission { seen := [] } msgRetry bodyRetry 1 rfl rfl
    (by decide) rfl (by decide) rfl

/-- Whether a queue action is a re-emission (`send_message`). -/
def isSendAction : QueueAction → Bool
  | .sendMessage _ _ => true
  | _ => false

/-- Test envelope whose `retry_count` is already 1. -/
def bodyRetried : Body :=
  { id := some "y", event_id := none, type := some "crawl-single-url",
    url := "https://e.com/a", retry_count := some 1, retry := some true }

/-- Test message delivering `bodyRetried` with receive count 2. -/
def msgRetried : Msg :=
  { messageId := "m2", receiptHandle := "rh2", body := some bodyRetried,
    bodyValid := true, approxReceiveCount := some 2 }

/-- C3: a handler failure on an envelope with incoming `retry_count ≥ 1`
is raised as non-retryable — the consumer issues no queue action at all
(no re-emission, no delete, no visibility change), leaving the message in
flight for the redrive policy — whereas a failure with incoming
`retry_count = 0` (or absent) produces exactly one re-emission. -/
theorem c3_retry_budget :
    (∀ (st : IdempotencyStore) (msg : Msg) (body : Body) (k : Int)
        (s : Bool),
        msg.body = some body → msg.bodyValid = true →
        envelope_key body msg.messageId ∉ st.seen →
        body.type = some "crawl-single-url" →
        body.retry_count = some k → 1 ≤ k →
        (process_message st msg false s).actions = [] ∧
        (process_message st msg false s).handlerInvoked =
          some (envelope_key body msg.messageId)) ∧
    (∀ (st : IdempotencyStore) (msg : Msg) (body : Body),
        msg.body = some body → msg.bodyValid = true →
        envelope_key body msg.messageId ∉ st.seen →
        body.type = some "crawl-single-url" →
        body.retry_count.getD 0 = 0 →
        ((process_message st msg false true).actions.filter
          isSendAction).length = 1) := by
  constructor
  · intro st msg body k s hb hv hk ht hrc hge
    obtain ⟨mid, rh, b, bv, arc⟩ := msg
    simp only at hb hv hk ⊢
    subst hb
    subst hv
    have hck : st.claim (envelope_key body mid) =
        (true, { seen := envelope_key body mid :: st.seen }) := by
      simp [IdempotencyStore.claim, hk]
    have hnlt : ¬ body.retry_count.getD 0 < 1 := by
      rw [hrc]
      simp only [Option.getD_some]
      omega
    constructor <;>
      simp [process_message, hck, ht, handle_crawl_single_url, hnlt]
  · intro st msg body hb hv hk ht hrc
    obtain ⟨mid, rh, b, bv, arc⟩ := msg
    simp only at hb hv hk ⊢
    subst hb
    subst hv
    have hck : st.claim (envelope_key body mid) =
        (true, { seen := envelope_key body mid :: st.seen }) := by
      simp [IdempotencyStore.claim, hk]
    have hlt : body.retry_count.getD 0 < 1 := by
      rw [hrc]
      omega
    simp [process_message, hck, ht, handle_crawl_single_url, hlt,
      isSendAction]

/-- Witness for C3 at scenarios S3 and S2: a `retry_count = 1` failure
issues no actions; a `retry_count = 0` failure issues one re-emission. -/
theorem c3_witness :
    ((process_message { seen := [] } msgRetried false true).actions = [] ∧
     (process_message { seen := [] } msgRetried false true).handlerInvoked =
       some "y") ∧
    ((process_message { seen := [] } msgRetry false true).actions.filter
      isSendAction).length = 1 :=
  ⟨c3_retry_budget.1 { seen := [] } msgRetried bodyRetried 1 true rfl rfl
     (by decide) rfl rfl (by decide),
   c3_retry_budget.2 { seen := [] } msgRetry bodyRetry rfl rfl
     (by decide) rfl rfl⟩

/-- The key of an envelope with a non-empty `id` is that `id`, regardless
of the provider message id. -/
theorem envelope_key_of_id (body : Body) (i mid : String)
    (hid : body.id = some i) (hne : i ≠ "") :
    envelope_key body mid = i := by
  simp [envelope_key, strTruthy, hid, hne]

/-- C9: a retryable re-emission keeps the envelope `id`, so when the
re-emitted message is received again by the same process its key is
already in the idempotency set and it is deleted without invoking the
handler: a retryable failure is never re-processed within a process
lifetime.  The first conjunct identifies the re-emitted payload; the
second shows its re-delivery (under any message id, receipt handle,
receive count and handler outcomes) is deleted with no dispatch. -/
theorem c9_reemission_idempotent
    (st : IdempotencyStore) (msg : Msg) (body : Body) (i mid2 rh2 : String)
    (arc2 : Option Nat) (c2 s2 : Bool)
    (hb : msg.body = some body) (hv : msg.bodyValid = true)
    (hid : body.id = some i) (hne : i ≠ "") (hfresh : i ∉ st.seen)
    (ht : body.type = some "crawl-single-url")
    (hrc : body.retry_count.getD 0 < 1) :
    (process_message st msg false true).actions.filter isSendAction =
      [.sendMessage
        { body with retry_count := some (body.retry_count.getD 0 + 1),
                    retry := some true }
        (compute_backoff_seconds (get_receive_count msg))] ∧
    process_message (process_message st msg false true).store
        { messageId := mid2, receiptHandle := rh2,
          body := some { body with
            retry_count := some (body.retry_count.getD 0 + 1),
            retry := some true },
          bodyValid := true, approxReceiveCount := arc2 } c2 s2 =
      { actions := [.deleteMessage rh2], handlerInvoked := none,
        store := (process_message st msg false true).store,
        raised := false } := by
  obtain ⟨mid, rh, b, bv, arc⟩ := msg
  simp only at hb hv ⊢
  subst hb
  subst hv
  have hkey : envelope_key body mid = i := envelope_key_of_id body i mid hid hne
  have hck : st.claim (envelope_key body mid) =
      (true, { seen := envelope_key body mid :: st.seen }) := by
    rw [hkey]
    simp [IdempotencyStore.claim, hfresh]
  have h1 : process_message st
      { messageId := mid, receiptHandle := rh, body := some body,
        bodyValid := true, approxReceiveCount := arc } false true =
      { actions := [.deleteMessage rh,
          .sendMessage
            { body with retry_count := some (body.retry_count.getD 0 + 1),
                        retry := some true }
            (compute_backoff_seconds (arc.getD 1))],
        handlerInvoked := some (envelope_key body mid),
        store := { seen := envelope_key body mid :: st.seen },
        raised := false } := by
    simp [process_message, hck, ht, handle_crawl_single_url, hrc,
      get_receive_count]
  rw [h1]
  constructor
  · simp [isSendAction, get_receive_count]
  · have hkey2 : envelope_key
        { body with retry_count := some (body.retry_count.getD 0 + 1),
                    retry := some true } mid2 = i :=
      envelope_key_of_id _ i mid2 hid hne
    exact pm_dup_deletes { seen := envelope_key body mid :: st.seen }
      { messageId := mid2, receiptHandle := rh2,
        body := some { body with
          retry_count := some (body.retry_count.getD 0 + 1),
          retry := some true },
        bodyValid := true, approxReceiveCount := arc2 }
      { body with retry_count := some (body.retry_count.getD 0 + 1),
                  retry := some true } c2 s2 rfl rfl
      (by rw [hkey2, hkey]; exact List.mem_cons_self i st.seen)

/-- Witness for C9: the re-emitted copy of `bodyRetry` is deleted without
dispatch when it comes back to the same process. -/
theorem c9_witness :
    (process_message { seen := [] } msgRetry false true).actions.filter
      isSendAction =
      [.sendMessage
        { bodyRetry with retry_count := some 1, retry := some true } 2] ∧
    process_message (process_message { seen := [] } msgRetry false true).store
        { messageId := "m9", receiptHandle := "rh9",
          body := some
            { bodyRetry with retry_count := some 1, retry := some true },
          bodyValid := true, approxReceiveCount := some 1 } false true =
      { actions := [.deleteMessage "rh9"], handlerInvoked := none,
        store := (process_message { seen := [] } msgRetry false true).store,
        raised := false } :=
  c9_reemission_idempotent { seen := [] } msgRetry bodyRetry "x" "m9" "rh9"
    (some 1) false true rfl rfl rfl (by decide) (by decide) rfl (by decide)

/-- Markers only accumulate across the submit loop. -/
theorem submitLoop_markers_mono (t : String) (p : List String)
    (items : List (Option String)) (track : Bool) :
    ∀ (markers : List (String × String)) (x : String × String),
      x ∈ markers → x ∈ (submitLoop track t p markers items).2.2 := by
  induction items with
  | nil =>
    intro markers x hx
    simpa [submitLoop] using hx
  | cons item rest ih =>
    intro markers x hx
    cases item with
    | none => simpa [submitLoop] using ih markers x hx
    | some url =>
      by_cases he : url = ""
      · simpa [submitLoop, he] using ih markers x hx
      · by_cases hp : track ∧ url ∈ p
        · simpa [submitLoop, he, hp] using ih markers x hx
        · have hx' : x ∈ (if track then markers ++ [(t, url)] else markers) := by
            by_cases htr : track
            · simp [htr]
              exact Or.inl hx
            · simpa [htr] using hx
          simpa [submitLoop, he, hp] using ih _ x hx'

/-- Every URL the loop enqueues gets a marker written for it. -/
theorem submitLoop_enqueued_marked (t : String) (p : List String)
    (items : List (Option String)) :
    ∀ (markers : List (String × String)) (url : String),
      url ∈ (submitLoop true t p markers items).2.1 →
      (t, url) ∈ (submitLoop true t p markers items).2.2 := by
  induction items with
  | nil =>
    intro markers url h
    simp [submitLoop] at h
  | cons item rest ih =>
    intro markers url h
    cases item with
    | none =>
      simp only [submitLoop] at h ⊢
      exact ih markers url h
    | some u =>
      by_cases he : u = ""
      · simp only [submitLoop, he, if_true] at h ⊢
        exact ih markers url h
      · by_cases hp : u ∈ p
        · simp only [submitLoop, he, if_false, hp, true_and, if_true,
            if_neg he] at h ⊢
          exact ih markers url h
        · have hskip : ¬(True ∧ u ∈ p) := by simp [hp]
          simp only [submitLoop, if_neg he, true_and, if_neg hp,
            if_true] at h ⊢
          rcases List.mem_cons.mp h with hequ | htail
          · subst hequ
            exact submitLoop_markers_mono t p rest true
              (markers ++ [(t, url)]) (t, url) (by simp)
          · exact ih (markers ++ [(t, u)]) url htail

/-- URLs already in the processed set read before the loop are never
enqueued by the loop. -/
theorem submitLoop_skip (t : String) (p : List String)
    (items : List (Option String)) :
    ∀ (markers : List (String × String)) (url : String), url ∈ p →
      url ∉ (submitLoop true t p markers items).2.1 := by
  induction items with
  | nil =>
    intro markers url hp
    simp [submitLoop]
  | cons item rest ih =>
    intro markers url hp h
    cases item with
    | none =>
      simp only [submitLoop] at h
      exact ih markers url hp h
    | some u =>
      by_cases he : u = ""
      · simp only [submitLoop, he, if_true] at h
        exact ih markers url hp h
      · by_cases hup : u ∈ p
        · simp only [submitLoop, if_neg he, true_and, if_pos hup] at h
          exact ih markers url hp h
        · simp only [submitLoop, if_neg he, true_and, if_neg hup,
            if_true] at h
          rcases List.mem_cons.mp h with hequ | htail
          · subst hequ
            exact hup hp
          · exact ih (markers ++ [(t, u)]) url hp htail

/-- After one loop run, every non-empty URL occurring in the items was
either already in the processed set or now has a marker. -/
theorem submitLoop_covered (t : String) (p : List String)
    (items : List (Option String)) :
    ∀ (markers : List (String × String)) (url : String),
      some url ∈ items → url ≠ "" →
      url ∈ p ∨ (t, url) ∈ (submitLoop true t p markers items).2.2 := by
  induction items with
  | nil =>
    intro markers url hmem
    simp at hmem
  | cons item rest ih =>
    intro markers url hmem hne
    rcases List.mem_cons.mp hmem with hhead | htail
    · subst hhead
      by_cases hup : url ∈ p
      · exact Or.inl hup
      · right
        simp only [submitLoop, if_neg hne, true_and, if_neg hup, if_true]
        exact submitLoop_markers_mono t p rest true
          (markers ++ [(t, url)]) (t, url) (by simp)
    · cases item with
      | none =>
        simp only [submitLoop]
        exact ih markers url htail hne
      | some u =>
        by_cases he : u = ""
        · simp only [submitLoop, he, if_true]
          exact ih markers url htail hne
        · by_cases hup : u ∈ p
          · simp only [submitLoop, if_neg he, true_and, if_pos hup]
            exact ih markers url htail hne
          · simp only [submitLoop, if_neg he, true_and, if_neg hup, if_true]
            exact ih (markers ++ [(t, u)]) url htail hne

/-- When every non-empty URL in the items is already in the processed
set, the loop enqueues nothing and writes no markers. -/
theorem submitLoop_all_processed (t : String) (p : List String)
    (items : List (Option String)) :
    ∀ (markers : List (String × String)),
      (∀ url, some url ∈ items → url ≠ "" → url ∈ p) →
      submitLoop true t p markers items = (0, [], markers) := by
  induction items with
  | nil =>
    intro markers hall
    simp [submitLoop]
  | cons item rest ih =>
    intro markers hall
    cases item with
    | none =>
      simp only [submitLoop]
      exact ih markers (fun url hu hne => hall url (by simp [hu]) hne)
    | some u =>
      by_cases he : u = ""
      · simp only [submitLoop, he, if_true]
        exact ih markers (fun url hu hne => hall url (by simp [hu]) hne)
      · have hup : u ∈ p := hall u (by simp) he
        simp only [submitLoop, if_neg he, true_and, if_pos hup]
        exact ih markers (fun url hu hne => hall url (by simp [hu]) hne)

/-- A marker `(t, url)` makes `url` visible in the processed set. -/
theorem marker_mem_processed (markers : List (String × String))
    (t url : String) (h : (t, url) ∈ markers) :
    url ∈ get_processed_urls markers t := by
  unfold get_processed_urls
  exact List.mem_map.mpr ⟨(t, url), List.mem_filter.mpr ⟨h, by simp⟩, rfl⟩

/-- Conversely, a processed URL has a marker for the task. -/
theorem processed_mem_marker (markers : List (String × String))
    (t url : String) (h : url ∈ get_processed_urls markers t) :
    (t, url) ∈ markers := by
  unfold get_processed_urls at h
  obtain ⟨m, hm, hu⟩ := List.mem_map.mp h
  obtain ⟨hmem, hfst⟩ := List.mem_filter.mp hm
  obtain ⟨a, b⟩ := m
  simp at hfst hu
  subst hfst
  subst hu
  exact hmem

/-- C5, as stated, is false: the processed set is read once before the
loop and not updated inside it, so a URL occurring twice in a single
run's item list is enqueued twice within one TTL window. -/
theorem c5_counterexample :
    (submit_rss_items_to_queue true [] "t"
      [some "u", some "u"]).2.1.count "u" = 2 := by
  decide

/-- C5 (amended): with tracking enabled, each URL is enqueued on at most
one scheduler run per TTL window — an entry whose URL already has a
processed-URL marker for the task at the start of the run is skipped, a
marker is written on each successful enqueue, and a second run with
unchanged feed items enqueues nothing — but a URL occurring several times
within one run's item list is enqueued once per occurrence, because the
processed set is read once at the start of the run. -/
theorem c5_processed_url_dedup
    (markers : List (String × String)) (t : String)
    (items : List (Option String)) :
    (submit_rss_items_to_queue true
        (submit_rss_items_to_queue true markers t items).2.2 t items =
      (0, [],
        (submit_rss_items_to_queue true markers t items).2.2)) ∧
    (∀ url, url ∈ get_processed_urls markers t →
        url ∉ (submit_rss_items_to_queue true markers t items).2.1) ∧
    (∀ url, url ∈ (submit_rss_items_to_queue true markers t items).2.1 →
        (t, url) ∈ (submit_rss_items_to_queue true markers t items).2.2) := by
  refine ⟨?_, ?_, ?_⟩
  · unfold submit_rss_items_to_queue
    simp only [if_pos trivial, if_true]
    apply submitLoop_all_processed
    intro url hu hne
    rcases submitLoop_covered t (get_processed_urls markers t) items
        markers url hu hne with hp | hm
    · exact marker_mem_processed _ t url
        (submitLoop_markers_mono t _ items true markers (t, url)
          (processed_mem_marker markers t url hp))
    · exact marker_mem_processed _ t url hm
  · intro url hp
    unfold submit_rss_items_to_queue
    simp only [if_true]
    exact submitLoop_skip t _ items markers url hp
  · intro url
    unfold submit_rss_items_to_queue
    simp only [if_true]
    exact submitLoop_enqueued_marked t _ items markers url

/-- Witness for C5 (amended) at scenario S4's second cycle: a second run
over the same two items enqueues nothing, the already-processed URL is
skipped, and each enqueued URL is marked. -/
theorem c5_witness :
    (submit_rss_items_to_queue true
        (submit_rss_items_to_queue true [("t", "u0")] "t"
          [some "u0", some "u1"]).2.2 "t" [some "u0", some "u1"] =
      (0, [],
        (submit_rss_items_to_queue true [("t", "u0")] "t"
          [some "u0", some "u1"]).2.2)) ∧
    ("u0" ∈ get_processed_urls [("t", "u0")] "t" ∧
      "u0" ∉ (submit_rss_items_to_queue true [("t", "u0")] "t"
        [some "u0", some "u1"]).2.1) ∧
    ("u1" ∈ (submit_rss_items_to_queue true [("t", "u0")] "t"
        [some "u0", some "u1"]).2.1 ∧
      ("t", "u1") ∈ (submit_rss_items_to_queue true [("t", "u0")] "t"
        [some "u0", some "u1"]).2.2) :=
  ⟨(c5_processed_url_dedup [("t", "u0")] "t" [some "u0", some "u1"]).1,
   ⟨by decide,
    (c5_processed_url_dedup [("t", "u0")] "t" [some "u0", some "u1"]).2.1
      "u0" (by decide)⟩,
   ⟨by decide,
    (c5_processed_url_dedup [("t", "u0")] "t" [some "u0", some "u1"]).2.2
      "u1" (by decide)⟩⟩

/-- C6: crawl outputs for URL `u` are written under the deterministic
directory `{base}/{task_id}/{YYYY}/{MM}/{DD}/{hash8}` whose last
component — and hence the `/{hash8}/` suffix of every output path —
is the last 8 hex characters of the URL's MD5 digest. -/
theorem c6_path_layout (md5hex : String → String) (base id url : String)
    (year month day : Nat) :
    (crawlSaveDirComponents base id year month day
        (url_hash8 md5hex url)).getLast? =
      some ((md5hex url).takeRight 8) ∧
    renderPath (crawlSaveDirComponents base id year month day
        (url_hash8 md5hex url)) =
      base ++ "/" ++ id ++ "/" ++ toString year ++ "/" ++ pad2 month ++
        "/" ++ pad2 day ++ "/" ++ (md5hex url).takeRight 8 ∧
    (∃ pre, renderPath (crawlSaveDirComponents base id year month day
        (url_hash8 md5hex url)) =
      pre ++ "/" ++ (md5hex url).takeRight 8) := by
  refine ⟨rfl, ?_, ?_⟩
  · simp [crawlSaveDirComponents, renderPath, url_hash8, String.append_assoc]
  · refine ⟨base ++ "/" ++ id ++ "/" ++ toString year ++ "/" ++ pad2 month ++
      "/" ++ pad2 day, ?_⟩
    simp [crawlSaveDirComponents, renderPath, url_hash8, String.append_assoc]

/-- The nominal refresh interval equals `⌊5·expiry/6⌋` seconds. -/
theorem refresh_seconds_closed_form (e : Nat) :
    REFRESH_SECONDS_of e = (5 * e) / 6 := by
  unfold REFRESH_SECONDS_of
  have h1 : (e : ℚ) - (e : ℚ) / 6 = ((5 * e : ℕ) : ℚ) / ((6 : ℕ) : ℚ) := by
    push_cast
    ring
  rw [h1, Int.floor_toNat, Nat.floor_div_nat, Nat.floor_natCast]

/-- A run of failed refresh attempts leaves the published credential
untouched and sleeps 300 seconds before each retry. -/
theorem bedrockRun_failures (e : Nat) (st : Option String) (n : Nat) :
    bedrockRun e st (List.replicate n .failure) =
      (st, List.replicate n 300) := by
  induction n with
  | zero => rfl
  | succ m ih => simp [List.replicate_succ, bedrockRun, bedrockStep, ih]

/-- C7: after each successful refresh the refresher publishes the new
credential and sleeps exactly `floor(expiry − expiry/6)` seconds; a
failed refresh leaves the previously published credential in place and
sleeps 300 seconds, and any run of consecutive failures preserves the
published credential with a 300-second sleep before every retry. -/
theorem c7_refresher (e : Nat) (st : Option String) (t : String) (n : Nat) :
    bedrockStep e st (.success t) = (some t, REFRESH_SECONDS_of e) ∧
    REFRESH_SECONDS_of e = (5 * e) / 6 ∧
    bedrockStep e st .failure = (st, 300) ∧
    bedrockRun e st (List.replicate n .failure) =
      (st, List.replicate n 300) :=
  ⟨rfl, refresh_seconds_closed_form e, rfl, bedrockRun_failures e st n⟩

/-- C8: an unset `max_items` or `max_items = 0` keeps all feed items,
while `max_items = n > 0` keeps exactly the first `n` items in the
parser's natural order. -/
theorem c8_max_items {α : Type} (entries : List α) (n : Int) (hn : 0 < n) :
    parse_rss_feed_limit none entries = entries ∧
    parse_rss_feed_limit (some 0) entries = entries ∧
    parse_rss_feed_limit (some n) entries = entries.take n.toNat := by
  refine ⟨rfl, rfl, ?_⟩
  simp [parse_rss_feed_limit, hn]

/-- Witness for C8 on a three-item feed truncated to two items. -/
theorem c8_witness :
    parse_rss_feed_limit none ["a", "b", "c"] = ["a", "b", "c"] ∧
    parse_rss_feed_limit (some 0) ["a", "b", "c"] = ["a", "b", "c"] ∧
    parse_rss_feed_limit (some 2) ["a", "b", "c"] = ["a", "b"] :=
  ⟨(c8_max_items ["a", "b", "c"] 2 (by decide)).1,
   (c8_max_items ["a", "b", "c"] 2 (by decide)).2.1,
   (c8_max_items ["a", "b", "c"] 2 (by decide)).2.2⟩

/-- C10: for every dispatched message the concurrency slot is acquired
once and released exactly once, whether the handler returns, raises, or
the heartbeat join re-raises, and no `Exception` escapes
`_handle_message`; the only escaping outcome is task cancellation. -/
theorem c10_slot_release (hb : Bool) (po : ProcOutcomePy) (hj : HbJoin) :
    (dispatch_message hb po hj).1.count HandleEvent.slotAcquire = 1 ∧
    (dispatch_message hb po hj).1.count HandleEvent.slotRelease = 1 ∧
    (dispatch_message hb po hj).2 ≠ some ProcOutcomePy.exc ∧
    (po ≠ ProcOutcomePy.cancelled → (dispatch_message hb po hj).2 = none) := by
  cases hb <;> cases po <;> cases hj <;> decide

/-- Witness for C10 with heartbeat enabled and the handler raising an
`Exception`: the slot is acquired and released once and nothing escapes. -/
theorem c10_witness :
    (dispatch_message true ProcOutcomePy.exc HbJoin.joined).1.count
      HandleEvent.slotAcquire = 1 ∧
    (dispatch_message true ProcOutcomePy.exc HbJoin.joined).1.count
      HandleEvent.slotRelease = 1 ∧
    (dispatch_message true ProcOutcomePy.exc HbJoin.joined).2 = none :=
  ⟨(c10_slot_release true ProcOutcomePy.exc HbJoin.joined).1,
   (c10_slot_release true ProcOutcomePy.exc HbJoin.joined).2.1,
   (c10_slot_release true ProcOutcomePy.exc HbJoin.joined).2.2.2
     (by decide)⟩

/-- Reachable gate states satisfy the semaphore invariant: the counter
plus the number of tasks inside `crawl_urls` is exactly the initial
capacity 1. -/
theorem crawl_invariant {n : Nat} (s : CrawlSystem n)
    (h : CrawlReachable s) : s.semValue + crawlingCount s = 1 := by
  induction h with
  | refl => simp [initCrawlSystem, crawlingCount]
  | @tail b c hsteps step ih =>
    cases step with
    | acquire i hp hv =>
      have hcnt : crawlingCount b = 0 := by omega
      have hfe : Finset.univ.filter
          (fun j => b.phase j = CrawlPhase.crawling) = ∅ :=
        Finset.card_eq_zero.mp hcnt
      have hnone : ∀ j : Fin n, b.phase j ≠ CrawlPhase.crawling := by
        intro j hj
        have hmem : j ∈ Finset.univ.filter
            (fun j => b.phase j = CrawlPhase.crawling) :=
          Finset.mem_filter.mpr ⟨Finset.mem_univ j, hj⟩
        rw [hfe] at hmem
        simp at hmem
      have hnew : Finset.univ.filter
          (fun j => Function.update b.phase i CrawlPhase.crawling j =
            CrawlPhase.crawling) = {i} := by
        ext j
        by_cases hji : j = i
        · simp [hji, Function.update_apply]
        · simp [hji, Function.update_apply, hnone j]
      simp only [crawlingCount, hnew, Finset.card_singleton]
      omega
    | release i hp =>
      have hi : i ∈ Finset.univ.filter
          (fun j => b.phase j = CrawlPhase.crawling) :=
        Finset.mem_filter.mpr ⟨Finset.mem_univ i, hp⟩
      have hpos : 0 < crawlingCount b := Finset.card_pos.mpr ⟨i, hi⟩
      have hcnt : crawlingCount b = 1 := by omega
      have hsem : b.semValue = 0 := by omega
      obtain ⟨a, ha⟩ := Finset.card_eq_one.mp hcnt
      have hai : i = a := by
        have hmem := hi
        rw [ha] at hmem
        simpa using hmem
      subst hai
      have hnew : Finset.univ.filter
          (fun j => Function.update b.phase i CrawlPhase.finished j =
            CrawlPhase.crawling) = ∅ := by
        ext j
        by_cases hji : j = i
        · simp [hji, Function.update_apply]
        · simp only [Function.update_apply, if_neg hji, Finset.mem_filter,
            Finset.mem_univ, true_and, Finset.not_mem_empty, iff_false]
          intro hc
          have hmem : j ∈ Finset.univ.filter
              (fun j => b.phase j = CrawlPhase.crawling) :=
            Finset.mem_filter.mpr ⟨Finset.mem_univ j, hc⟩
          rw [ha] at hmem
          exact hji (by simpa using hmem)
      simp only [crawlingCount, hnew, Finset.card_empty]
      omega

/-- C4: in every reachable interleaving of the handlers, at most one task
is executing `crawl_urls` at any moment — the `crawl_semaphore` gate
serialises extraction regardless of how many dispatch slots are free. -/
theorem c4_single_flight {n : Nat} (s : CrawlSystem n)
    (h : CrawlReachable s) : crawlingCount s ≤ 1 := by
  have hinv := crawl_invariant s h
  omega

/-- Witness for C4 at the initial state with three dispatched handlers. -/
theorem c4_witness : crawlingCount (initCrawlSystem 3) ≤ 1 :=
  c4_single_flight (initCrawlSystem 3) Relation.ReflTransGen.refl
